import Mathlib

/-!
Verification development for a TypeScript lexer/parser front end
(Monkey-style language): token model (`src/token.ts`), lexer
(`src/lexer.ts`), AST with source reconstruction (`src/ast.ts`) and
Pratt recursive-descent parser (`src/parser.ts`).

The embedding is executable: the lexer is a state machine over the
character list of the input; loops in the source (`skipWhitespace`,
`readIdentifier`, `readNumber`, the parser's `while` loops and the
mutually recursive descent) are modelled with an explicit fuel
parameter, where a `none` result of a parser function means the fuel
ran out (the original code has no such outcome except by genuine
non-termination; all terminating runs are reproduced with sufficient
fuel).  TypeScript `null`/`undefined` values inside results are
modelled with `Option`.
-/

namespace Interp

/-! ## Token model (src/token.ts) -/

/-- The closed enumeration of token kinds (`enum TOKENS`). -/
inductive TOKENS where
  | ILLEGAL | EOF
  | IDENT | INT
  | ASSIGN | PLUS | MINUS | BANG | ASTERISK | SLASH | LT | GT | EQ | NOT_EQ
  | COMMA | SEMICOLON | LPAREN | RPAREN | LBRACE | RBRACE
  | FUNCTION | LET | TRUE | FALSE | IF | ELSE | RETURN
deriving DecidableEq, Repr

/-- Left brace character (written by code point to keep braces out of literals). -/
def lbraceChar : Char := Char.ofNat 123

/-- Right brace character. -/
def rbraceChar : Char := Char.ofNat 125

/-- The string value of each member of the TypeScript string enum `TOKENS`;
this is the text produced when a token kind is interpolated into a
diagnostic message (e.g. `TOKENS.ASSIGN` prints as `=`). -/
def TOKENS.str : TOKENS → String
  | .ILLEGAL => "ILLEGAL"
  | .EOF => "EOF"
  | .IDENT => "IDENT"
  | .INT => "INT"
  | .ASSIGN => "="
  | .PLUS => "+"
  | .MINUS => "-"
  | .BANG => "!"
  | .ASTERISK => "*"
  | .SLASH => "/"
  | .LT => "<"
  | .GT => ">"
  | .EQ => "=="
  | .NOT_EQ => "!="
  | .COMMA => ","
  | .SEMICOLON => ";"
  | .LPAREN => "("
  | .RPAREN => ")"
  | .LBRACE => String.mk [lbraceChar]
  | .RBRACE => String.mk [rbraceChar]
  | .FUNCTION => "FUNCTION"
  | .LET => "LET"
  | .TRUE => "TRUE"
  | .FALSE => "FALSE"
  | .IF => "IF"
  | .ELSE => "ELSE"
  | .RETURN => "RETURN"

/-- The runtime value stored in a token's `type` field.  The TypeScript
declaration says `TOKENS`, but `lookupIdent` reads `KEYWORDS[ident]`
off a plain object literal, so for an identifier named after a member
of `Object.prototype` the property access yields that inherited
function or object (truthy, hence returned by the `||`), which then
flows into `newToken` unchanged.  A token's type is therefore either a
member of the string enum or such an inherited prototype member. -/
inductive TokType where
  | kind (t : TOKENS)
  | protoProp (name : String)
deriving DecidableEq, Repr

/-- The text produced when a token's `type` value is interpolated into a
diagnostic: the enum's string value for a TOKENS member.  For an
inherited `Object.prototype` member the interpolated text is the
implementation-defined rendering of that function or object; it is
modelled by a placeholder and reached by no theorem in this file. -/
def TokType.str : TokType → String
  | .kind t => t.str
  | .protoProp n => "[Object.prototype." ++ n ++ "]"

/-- A token: kind plus literal text (`type Token`). -/
structure Token where
  type : TokType
  literal : String
deriving DecidableEq, Repr

/-- Helper constructing a token (`newToken`).  The TS signature declares
the first parameter as `TOKENS`, but the identifier branch of the lexer
passes `lookupIdent`'s result straight through, so the runtime type of
the parameter is `TokType`. -/
def newToken (token : TokType) (char : String) : Token :=
  { type := token, literal := char }

/-- The keyword table (`KEYWORDS`): the own properties of the object
literal in src/token.ts. -/
def KEYWORDS : List (String × TOKENS) :=
  [("fn", .FUNCTION), ("let", .LET), ("true", .TRUE), ("false", .FALSE),
   ("if", .IF), ("else", .ELSE), ("return", .RETURN)]

/-- The own property names of `Object.prototype` (ECMAScript §20.2.3 plus
the normative-optional legacy accessors of Annex B, all present in
Node): a plain object literal inherits all of them, each bound to a
function or (for `__proto__`) an object — truthy values every one. -/
def objectPrototypeProps : List String :=
  ["constructor", "hasOwnProperty", "isPrototypeOf", "propertyIsEnumerable",
   "toLocaleString", "toString", "valueOf", "__proto__",
   "__defineGetter__", "__defineSetter__", "__lookupGetter__", "__lookupSetter__"]

/-- Keyword lookup (`lookupIdent`): `KEYWORDS[ident] || TOKENS.IDENT`.
JavaScript property access consults the object's own properties first
(the seven keywords) and then the prototype chain: for an identifier
named after an `Object.prototype` member the access yields that
inherited member, which is truthy, so the `||` returns it — not
`TOKENS.IDENT`.  Only when the access yields `undefined` (any other
name) does the `||` produce `TOKENS.IDENT`. -/
def lookupIdent (ident : String) : TokType :=
  match KEYWORDS.lookup ident with
  | some t => .kind t
  | none =>
    if ident ∈ objectPrototypeProps then .protoProp ident
    else .kind TOKENS.IDENT

/-- A JavaScript number as `parseInt` can produce one: a finite float64
that carries an integer value, an infinity, or NaN.  (Finite `parseInt`
results are always integer-valued floats, held here exactly.) -/
inductive JSNum where
  | finite (v : Int)
  | inf (neg : Bool)
  | nan
deriving DecidableEq, Repr

/-! ## Lexer (src/lexer.ts)

State of the scanner.  The TypeScript field `ch : string` holds either a
single character or the empty string (meaning end of input); it is
modelled as `Option Char`, with `none` for the empty string. -/

structure Lexer where
  input : List Char
  position : Nat
  readPosition : Nat
  ch : Option Char
deriving DecidableEq, Repr

/-- Advance the scanner by one character (`readChar`). -/
def Lexer.readChar (l : Lexer) : Lexer :=
  let c := if l.readPosition ≥ l.input.length then none else l.input.get? l.readPosition
  { l with ch := c, position := l.readPosition, readPosition := l.readPosition + 1 }

/-- The constructor `new Lexer(input)`: fields start at zero, `ch` is first
set to `input[0]` and then immediately overwritten by `readChar`. -/
def Lexer.new (input : List Char) : Lexer :=
  Lexer.readChar { input := input, position := 0, readPosition := 0, ch := input.get? 0 }

/-- Look at the next character without advancing (`peekChar`). -/
def Lexer.peekChar (l : Lexer) : Option Char :=
  if l.readPosition ≥ l.input.length then none else l.input.get? l.readPosition

/-- Character class of identifiers (`isLetter`, regex `[a-zA-Z_]`). -/
def isLetter (c : Char) : Bool :=
  (('a' ≤ c) && (c ≤ 'z')) || (('A' ≤ c) && (c ≤ 'Z')) || (c = '_')

/-- Character class of digits (`isDigit`, regex `[0-9]`). -/
def isDigit (c : Char) : Bool :=
  ('0' ≤ c) && (c ≤ '9')

/-- The whitespace characters skipped by `skipWhitespace`. -/
def isWhitespaceCh (c : Char) : Bool :=
  (c = ' ') || (c = '\t') || (c = '\n') || (c = '\r')

/-- Fueled loop body of `skipWhitespace`. -/
def skipWhitespaceF : Nat → Lexer → Lexer
  | 0, l => l
  | fuel+1, l =>
    match l.ch with
    | some c => if isWhitespaceCh c then skipWhitespaceF fuel l.readChar else l
    | none => l

/-- Skip whitespace (`skipWhitespace`); `input.length + 1` readChar steps
always reach a non-whitespace character or the end of the input. -/
def Lexer.skipWhitespace (l : Lexer) : Lexer :=
  skipWhitespaceF (l.input.length + 1) l

/-- Fueled loop body of `readIdentifier`. -/
def readIdentifierF : Nat → Lexer → Lexer
  | 0, l => l
  | fuel+1, l =>
    match l.ch with
    | some c => if isLetter c then readIdentifierF fuel l.readChar else l
    | none => l

/-- Read a maximal letter run starting at the current position
(`readIdentifier`); returns `input.slice(position, newPosition)`. -/
def Lexer.readIdentifier (l : Lexer) : String × Lexer :=
  let l2 := readIdentifierF (l.input.length + 1) l
  (String.mk ((l.input.drop l.position).take (l2.position - l.position)), l2)

/-- Fueled loop body of `readNumber`. -/
def readNumberF : Nat → Lexer → Lexer
  | 0, l => l
  | fuel+1, l =>
    match l.ch with
    | some c => if isDigit c then readNumberF fuel l.readChar else l
    | none => l

/-- Read a maximal digit run starting at the current position (`readNumber`). -/
def Lexer.readNumber (l : Lexer) : String × Lexer :=
  let l2 := readNumberF (l.input.length + 1) l
  (String.mk ((l.input.drop l.position).take (l2.position - l.position)), l2)

/-- One step of the scanner (`nextToken`).  The TypeScript `switch` is a
chain of mutually exclusive character tests, rendered here as an
if-chain (case order is irrelevant since the tested characters are
distinct).  The `break`ing cases fall through to a final `readChar`;
the identifier, number and illegal-character branches `return`
directly, so in particular the illegal-character branch leaves the
scanner state unchanged. -/
def Lexer.nextToken (l0 : Lexer) : Token × Lexer :=
  let l := l0.skipWhitespace
  match l.ch with
  | none => (newToken (.kind .EOF) "", l.readChar)
  | some c =>
    if c = '=' then
      if l.peekChar = some '=' then (newToken (.kind .EQ) "==", l.readChar.readChar)
      else (newToken (.kind .ASSIGN) (String.mk [c]), l.readChar)
    else if c = ';' then (newToken (.kind .SEMICOLON) (String.mk [c]), l.readChar)
    else if c = '(' then (newToken (.kind .LPAREN) (String.mk [c]), l.readChar)
    else if c = ')' then (newToken (.kind .RPAREN) (String.mk [c]), l.readChar)
    else if c = ',' then (newToken (.kind .COMMA) (String.mk [c]), l.readChar)
    else if c = '+' then (newToken (.kind .PLUS) (String.mk [c]), l.readChar)
    else if c = lbraceChar then (newToken (.kind .LBRACE) (String.mk [c]), l.readChar)
    else if c = rbraceChar then (newToken (.kind .RBRACE) (String.mk [c]), l.readChar)
    else if c = '-' then (newToken (.kind .MINUS) (String.mk [c]), l.readChar)
    else if c = '!' then
      if l.peekChar = some '=' then (newToken (.kind .NOT_EQ) "!=", l.readChar.readChar)
      else (newToken (.kind .BANG) (String.mk [c]), l.readChar)
    else if c = '*' then (newToken (.kind .ASTERISK) (String.mk [c]), l.readChar)
    else if c = '/' then (newToken (.kind .SLASH) (String.mk [c]), l.readChar)
    else if c = '<' then (newToken (.kind .LT) (String.mk [c]), l.readChar)
    else if c = '>' then (newToken (.kind .GT) (String.mk [c]), l.readChar)
    else if isLetter c then
      let p := l.readIdentifier
      (newToken (lookupIdent p.1) p.1, p.2)
    else if isDigit c then
      let p := l.readNumber
      (newToken (.kind .INT) p.1, p.2)
    else
      (newToken (.kind .ILLEGAL) (String.mk [c]), l)

/-- Fueled token-stream extraction: run `nextToken` until EOF. -/
def tokenizeF : Nat → Lexer → List Token
  | 0, _ => []
  | fuel+1, l =>
    let p := l.nextToken
    if p.1.type = TokType.kind .EOF then [p.1] else p.1 :: tokenizeF fuel p.2

/-- The token stream of a source string, EOF token included (this is the
sequence of values successive `lexer.nextToken()` calls produce; every
token other than ILLEGAL consumes at least one character, so
`length + 1` steps suffice for inputs without illegal characters). -/
def tokenize (s : String) : List Token :=
  tokenizeF (s.length + 1) (Lexer.new s.toList)

/-! ## AST node model (src/ast.ts)

Statements and expressions are mutually recursive; nullable fields of
the TypeScript classes are `Option` fields.  `letStmt.name` and the
elements of `fnLit.parameters` are always `Identifier` nodes in the
code (`TIdentifier`), represented by the `identE` constructor. -/

mutual
inductive Expr where
  | identE (token : Token) (value : String)
  | intLit (token : Token) (value : JSNum)
  | boolLit (token : Token) (value : Bool)
  | prefixEx (token : Token) (operator : String) (right : Option Expr)
  | infixEx (token : Token) (left : Option Expr) (operator : String) (right : Option Expr)
  | ifEx (token : Token) (condition : Option Expr) (consequence : Option Stmt)
      (alternative : Option Stmt)
  | fnLit (token : Token) (parameters : Option (List Expr)) (body : Option Stmt)
  | callEx (token : Token) (fn : Option Expr) (arguments : Option (List (Option Expr)))
inductive Stmt where
  | letStmt (token : Token) (name : Option Expr) (value : Option Expr)
  | returnStmt (token : Token) (returnValue : Option Expr)
  | exprStmt (token : Token) (expression : Option Expr)
  | blockStmt (token : Token) (statements : List Stmt)
end

/-- The literal text of a statement's defining token (`tokenLiteral()`). -/
def Stmt.tokenLiteral : Stmt → String
  | .letStmt t _ _ => t.literal
  | .returnStmt t _ => t.literal
  | .exprStmt t _ => t.literal
  | .blockStmt t _ => t.literal

/-- Whether a statement is a `LetStatement` node. -/
def Stmt.isLet : Stmt → Bool
  | .letStmt _ _ _ => true
  | _ => false

/-- The `name?.value` access in `LetStatement.string()`: the `value` field
of the stored Identifier, or the text `undefined` when the field is
null (JS template-literal interpolation of `undefined`).  The parser
only ever stores Identifier nodes in `name`; other variants cannot
occur and are rendered as `undefined` as a harmless default. -/
def letNameString : Option Expr → String
  | some (.identE _ v) => v
  | some _ => "undefined"
  | none => "undefined"

mutual
/-- Canonical source reconstruction of an expression (`string()` of each
expression class in src/ast.ts). -/
def exprString : Expr → String
  | .identE _ v => v
  | .intLit tok _ => tok.literal
  | .boolLit tok _ => tok.literal
  | .prefixEx _ op right => "(" ++ op ++ optExprString right ++ ")"
  | .infixEx _ left op right =>
      "(" ++ optExprString left ++ " " ++ op ++ " " ++ optExprString right ++ ")"
  | .ifEx _ cond cons alt =>
      "if " ++ optExprString cond ++ " " ++ optStmtString cons ++ " " ++
        (match alt with
         | some a => "else " ++ stmtString a
         | none => "")
  | .fnLit tok params body =>
      tok.literal ++ "(" ++
        (match params with
         | some ps => paramsString ps
         | none => "") ++ ") " ++ optStmtString body
  | .callEx _ f args =>
      optExprString f ++ "(" ++
        (match args with
         | some l => argsString l
         | none => "undefined") ++ ")"
/-- Interpolation of a nullable expression: JS renders `undefined` for null. -/
def optExprString : Option Expr → String
  | none => "undefined"
  | some e => exprString e
/-- Interpolation of a nullable block statement. -/
def optStmtString : Option Stmt → String
  | none => "undefined"
  | some s => stmtString s
/-- Function-literal parameter list rendering: `join(", ")`. -/
def paramsString : List Expr → String
  | [] => ""
  | [e] => exprString e
  | e :: rest => exprString e ++ ", " ++ paramsString rest
/-- Call-argument rendering: the code interpolates the mapped array into a
template literal, so `Array.prototype.toString` joins with a bare comma.
A null element would make the original `arg.string()` call throw; it is
rendered here as `undefined` (no theorem below reaches that branch). -/
def argsString : List (Option Expr) → String
  | [] => ""
  | [a] => optExprString a
  | a :: rest => optExprString a ++ "," ++ argsString rest
/-- Canonical source reconstruction of a statement (`string()` of each
statement class in src/ast.ts). -/
def stmtString : Stmt → String
  | .letStmt tok name value =>
      tok.literal ++ " " ++ letNameString name ++ " = " ++ optExprString value ++ ";"
  | .returnStmt tok rv => tok.literal ++ " " ++ optExprString rv ++ ";"
  | .exprStmt _ e =>
      match e with
      | none => ""
      | some ex => exprString ex
  | .blockStmt _ stmts => stmtsString stmts
/-- Concatenation of statement renderings (`BlockStatement.string`,
`Program.string`): `join("")` with no separators. -/
def stmtsString : List Stmt → String
  | [] => ""
  | s :: rest => stmtString s ++ stmtsString rest
end

/-- `Program.string()`: concatenation of the statements' renderings. -/
def programString (statements : List Stmt) : String :=
  stmtsString statements

/-! ## Parser (src/parser.ts)

The parser pulls tokens from its lexer strictly sequentially, so it is
embedded over the lexer's extracted token stream: `nextTok` on the
remaining stream behaves exactly like `lexer.nextToken()`, producing
EOF tokens forever once the stream is exhausted.  `peekToken` is always
a token object (the lexer is total), so the `throw` guard in the
parser's `nextToken` never fires and is not modelled. -/

/-- Precedence levels (`enum PRECEDENCE`). -/
def PRECEDENCE.LOWEST : Nat := 0
def PRECEDENCE.EQUALS : Nat := 1
def PRECEDENCE.LESSGREATER : Nat := 2
def PRECEDENCE.SUM : Nat := 3
def PRECEDENCE.PRODUCT : Nat := 4
def PRECEDENCE.PREFIX : Nat := 5
def PRECEDENCE.CALL : Nat := 6

/-- The operator-precedence table (`PRECENDENCE_TABLE`); a JS object
lookup yields `undefined` (here `none`) for absent keys.  The table's
own keys are the enum strings, so an inherited-object token type (whose
string coercion is no enum string) misses the table. -/
def PRECENDENCE_TABLE : TokType → Option Nat
  | .kind .EQ => some PRECEDENCE.EQUALS
  | .kind .NOT_EQ => some PRECEDENCE.EQUALS
  | .kind .LT => some PRECEDENCE.LESSGREATER
  | .kind .GT => some PRECEDENCE.LESSGREATER
  | .kind .PLUS => some PRECEDENCE.SUM
  | .kind .MINUS => some PRECEDENCE.SUM
  | .kind .SLASH => some PRECEDENCE.PRODUCT
  | .kind .ASTERISK => some PRECEDENCE.PRODUCT
  | .kind .LPAREN => some PRECEDENCE.CALL
  | _ => none

/-- Parser state: remaining token stream, the two-token lookahead window
and the accumulated error list. -/
structure PState where
  tokens : List Token
  curToken : Token
  peekToken : Token
  errors : List String
deriving DecidableEq, Repr

/-- One pull from the token source; after the end of the stream the lexer
keeps producing EOF tokens with empty literal. -/
def nextTok : List Token → Token × List Token
  | [] => (newToken (.kind .EOF) "", [])
  | t :: ts => (t, ts)

/-- The parser's `nextToken`: shift the lookahead window. -/
def PState.nextToken (p : PState) : PState :=
  let q := nextTok p.tokens
  { p with curToken := p.peekToken, peekToken := q.1, tokens := q.2 }

/-- The `Parser` constructor: two initial reads prime `curToken` and
`peekToken`; the handler tables are fixed (see `hasPrefixFn`,
`hasInfixFn` and the dispatch in `parseExpressionF`). -/
def Parser.init (ts : List Token) : PState :=
  let q1 := nextTok ts
  let q2 := nextTok q1.2
  { tokens := q2.2, curToken := q1.1, peekToken := q2.1, errors := [] }

/-- Helper `curTokenIs`: strict equality of the token's type value with
the given enum member (an inherited-object type never equals an enum
string). -/
def PState.curTokenIs (p : PState) (t : TOKENS) : Bool :=
  p.curToken.type = TokType.kind t

/-- Helper `peekTokenIs`. -/
def PState.peekTokenIs (p : PState) (t : TOKENS) : Bool :=
  p.peekToken.type = TokType.kind t

/-- Diagnostic for a peek mismatch (`peekError`); the expected kind is an
enum member, the actual kind is whatever type value the peek token
carries. -/
def PState.peekError (p : PState) (t : TOKENS) : PState :=
  { p with errors := p.errors ++
      ["expected next token to be " ++ t.str ++ ", got " ++ p.peekToken.type.str ++ " instead"] }

/-- Helper `expectPeek`: advance on a match, record a diagnostic and stay
put otherwise. -/
def PState.expectPeek (p : PState) (t : TOKENS) : Bool × PState :=
  if p.peekTokenIs t then (true, p.nextToken) else (false, p.peekError t)

/-- Diagnostic for a missing prefix handler (`noPrefixParseFnError`). -/
def PState.noPrefixParseFnError (p : PState) (t : TokType) : PState :=
  { p with errors := p.errors ++ ["no prefix parse function for " ++ t.str ++ " found"] }

/-- Precedence of the current token (`curPrecedence`).  The JS truthiness
check `p ? p : LOWEST` agrees with this since no table entry is 0. -/
def PState.curPrecedence (p : PState) : Nat :=
  match PRECENDENCE_TABLE p.curToken.type with
  | some v => v
  | none => PRECEDENCE.LOWEST

/-- Precedence of the peek token (`peekPrecedence`). -/
def PState.peekPrecedence (p : PState) : Nat :=
  match PRECENDENCE_TABLE p.peekToken.type with
  | some v => v
  | none => PRECEDENCE.LOWEST

/-- The token kinds registered with a prefix handler in the constructor.
The handler tables are objects keyed by the enum strings; a token whose
type is an inherited prototype member coerces to a different string and
finds no handler. -/
def hasPrefixFn : TokType → Bool
  | .kind .IDENT | .kind .INT | .kind .BANG | .kind .MINUS | .kind .TRUE
  | .kind .FALSE | .kind .LPAREN | .kind .IF | .kind .FUNCTION => true
  | _ => false

/-- The token kinds registered with an infix handler in the constructor. -/
def hasInfixFn : TokType → Bool
  | .kind .PLUS | .kind .MINUS | .kind .SLASH | .kind .ASTERISK | .kind .EQ
  | .kind .NOT_EQ | .kind .LT | .kind .GT | .kind .LPAREN => true
  | _ => false

/-- Maximal leading digit run of a character list. -/
def leadingDigits : List Char → List Char
  | [] => []
  | c :: cs => if isDigit c then c :: leadingDigits cs else []

/-- Numeric value of a digit run. -/
def digitsToNat (ds : List Char) : Nat :=
  ds.foldl (fun a c => a * 10 + (c.toNat - '0'.toNat)) 0

/-- Fueled binary length: the number of binary digits of `n` (0 for 0).
Callers pass fuel that bounds the recursion depth from above, so that
the function is structurally recursive and kernel-evaluable. -/
def bitLenF : Nat → Nat → Nat
  | 0, _ => 0
  | f+1, n => if n = 0 then 0 else bitLenF f (n / 2) + 1

/-- Round a nonnegative integer with binary length `bl` to the nearest
IEEE-754 float64 value (round half to even): values below 2^53 are
exact; above, the low `bl - 53` bits are rounded away; a result
reaching 2^1024 overflows to Infinity, signalled by `none`. -/
def roundFloat64 (n bl : Nat) : Option Nat :=
  if n < 2 ^ 53 then some n
  else
    let k := bl - 53
    let q := n / 2 ^ k
    let r := n % 2 ^ k
    let half := 2 ^ (k - 1)
    let q2 :=
      if half < r then q + 1
      else if r < half then q
      else if q % 2 = 0 then q else q + 1
    let v := q2 * 2 ^ k
    if v < 2 ^ 1024 then some v else none

/-- Model of JavaScript `parseInt(s)` (radix 10): skip leading whitespace,
read an optional sign, then a maximal digit prefix; no digits give NaN.
The digit run's mathematical value is converted to a Number, i.e.
rounded to the nearest float64 (so e.g.
`parseInt("9007199254740993")` is the float 9007199254740992), with
overflow to ±Infinity.  The bit-length fuel `4 * length + 64` exceeds
the binary length of any value below `10^length`. -/
def jsParseInt (s : String) : JSNum :=
  let cs := s.toList.dropWhile (fun c => isWhitespaceCh c)
  let q : Bool × List Char :=
    match cs with
    | '-' :: r => (true, r)
    | '+' :: r => (false, r)
    | r => (false, r)
  let ds := leadingDigits q.2
  if ds.isEmpty then .nan
  else
    let n := digitsToNat ds
    match roundFloat64 n (bitLenF (4 * ds.length + 64) n) with
    | some v => .finite (if q.1 then -(v : Int) else (v : Int))
    | none => .inf q.1

/-- Prefix handler for identifiers (`parseIdentifier`). -/
def parseIdentifier (p : PState) : Option Expr × PState :=
  (some (.identE p.curToken p.curToken.literal), p)

/-- Prefix handler for integer literals (`parseIntegerLiteral`): builds the
node from `parseInt(literal)`, and reports a diagnostic and yields no
node exactly when that value is NaN (`Number.isNaN(parseInt(...))`). -/
def parseIntegerLiteral (p : PState) : Option Expr × PState :=
  match jsParseInt p.curToken.literal with
  | .nan =>
      (none, { p with errors := p.errors ++
        ["could not parse " ++ p.curToken.literal ++ " as integer"] })
  | v => (some (.intLit p.curToken v), p)

/-- Prefix handler for boolean literals (`parseBoolean`). -/
def parseBoolean (p : PState) : Option Expr × PState :=
  (some (.boolLit p.curToken (p.curTokenIs .TRUE)), p)

/-! ### Recursive descent

Every parsing routine takes a fuel argument and returns `none` exactly
when the fuel runs out; the `Option` inside the returned pair is the
TypeScript `null`.  Each `while` loop of the source is the fueled loop
function named after its host routine. -/

mutual

/-- Loop of `parseProgram`: parse statements until the current token is
EOF, pushing every non-null result. -/
def programLoop : Nat → List Stmt → PState → Option (List Stmt × PState)
  | 0, _, _ => none
  | fuel+1, acc, p =>
    if p.curTokenIs .EOF then some (acc, p)
    else
      match parseStatementF fuel p with
      | none => none
      | some (st, p1) =>
        let acc2 := match st with
          | some s => acc ++ [s]
          | none => acc
        programLoop fuel acc2 p1.nextToken

/-- Statement dispatch (`parseStatement`). -/
def parseStatementF : Nat → PState → Option (Option Stmt × PState)
  | 0, _ => none
  | fuel+1, p =>
    match p.curToken.type with
    | .kind .LET => parseLetStatementF fuel p
    | .kind .RETURN => parseReturnStatementF fuel p
    | _ => parseExpressionStatementF fuel p

/-- Let statements (`parseLetStatement`): `let IDENT = <expr>`; note that
the final check advances only when the peek token is NOT a semicolon
(the negated condition is what the source at parser.ts:173 does). -/
def parseLetStatementF : Nat → PState → Option (Option Stmt × PState)
  | 0, _ => none
  | fuel+1, p =>
    let letTok := p.curToken
    match p.expectPeek .IDENT with
    | (false, p1) => some (none, p1)
    | (true, p1) =>
      let name := Expr.identE p1.curToken p1.curToken.literal
      match p1.expectPeek .ASSIGN with
      | (false, p2) => some (none, p2)
      | (true, p2) =>
        let p3 := p2.nextToken
        match parseExpressionF fuel PRECEDENCE.LOWEST p3 with
        | none => none
        | some (value, p4) =>
          let p5 := if !(p4.peekTokenIs .SEMICOLON) then p4.nextToken else p4
          some (some (.letStmt letTok (some name) value), p5)

/-- Return statements (`parseReturnStatement`). -/
def parseReturnStatementF : Nat → PState → Option (Option Stmt × PState)
  | 0, _ => none
  | fuel+1, p =>
    let retTok := p.curToken
    let p1 := p.nextToken
    match parseExpressionF fuel PRECEDENCE.LOWEST p1 with
    | none => none
    | some (rv, p2) =>
      let p3 := if p2.peekTokenIs .SEMICOLON then p2.nextToken else p2
      some (some (.returnStmt retTok rv), p3)

/-- Expression statements (`parseExpressionStatement`): always returns a
(non-null) statement whose expression field may be null. -/
def parseExpressionStatementF : Nat → PState → Option (Option Stmt × PState)
  | 0, _ => none
  | fuel+1, p =>
    let tok := p.curToken
    match parseExpressionF fuel PRECEDENCE.LOWEST p with
    | none => none
    | some (e, p1) =>
      let p2 := if p1.peekTokenIs .SEMICOLON then p1.nextToken else p1
      some (some (.exprStmt tok e), p2)

/-- Pratt expression parsing (`parseExpression`): look up the prefix
handler for the current token kind (the dispatch mirrors the
registrations in the constructor); with no handler, record the
diagnostic and return null; otherwise obtain the left expression and
enter the precedence-climbing loop. -/
def parseExpressionF : Nat → Nat → PState → Option (Option Expr × PState)
  | 0, _, _ => none
  | fuel+1, precedence, p =>
    match p.curToken.type with
    | .kind .IDENT =>
      let q := parseIdentifier p
      prattLoop fuel precedence q.1 q.2
    | .kind .INT =>
      let q := parseIntegerLiteral p
      prattLoop fuel precedence q.1 q.2
    | .kind .BANG =>
      match parsePrefixExpressionF fuel p with
      | none => none
      | some (e, p1) => prattLoop fuel precedence e p1
    | .kind .MINUS =>
      match parsePrefixExpressionF fuel p with
      | none => none
      | some (e, p1) => prattLoop fuel precedence e p1
    | .kind .TRUE =>
      let q := parseBoolean p
      prattLoop fuel precedence q.1 q.2
    | .kind .FALSE =>
      let q := parseBoolean p
      prattLoop fuel precedence q.1 q.2
    | .kind .LPAREN =>
      match parseGroupedExpressionF fuel p with
      | none => none
      | some (e, p1) => prattLoop fuel precedence e p1
    | .kind .IF =>
      match parseIfExpressionF fuel p with
      | none => none
      | some (e, p1) => prattLoop fuel precedence e p1
    | .kind .FUNCTION =>
      match parseFunctionLiteralF fuel p with
      | none => none
      | some (e, p1) => prattLoop fuel precedence e p1
    | t => some (none, p.noPrefixParseFnError t)

/-- The `while` loop of `parseExpression`: extend the left expression
while the peek token is not a semicolon, binds tighter than the floor,
and has an infix handler (`peekToken` itself is always truthy).  The
handler is chosen by the peek token's kind before advancing: LPAREN
gets `parseCallExpression`, the binary operators get
`parseInfixExpression`. -/
def prattLoop : Nat → Nat → Option Expr → PState → Option (Option Expr × PState)
  | 0, _, _, _ => none
  | fuel+1, precedence, leftExp, p =>
    if !(p.peekTokenIs .SEMICOLON) && decide (precedence < p.peekPrecedence) then
      if hasInfixFn p.peekToken.type then
        let t := p.peekToken.type
        let p1 := p.nextToken
        match (if t = .kind .LPAREN then parseCallExpressionF fuel leftExp p1
               else parseInfixExpressionF fuel leftExp p1) with
        | none => none
        | some (e2, p2) => prattLoop fuel precedence e2 p2
      else some (leftExp, p)
    else some (leftExp, p)

/-- Unary operators (`parsePrefixExpression`): consume the operator and
parse the operand at PREFIX precedence. -/
def parsePrefixExpressionF : Nat → PState → Option (Option Expr × PState)
  | 0, _ => none
  | fuel+1, p =>
    let tok := p.curToken
    let op := p.curToken.literal
    let p1 := p.nextToken
    match parseExpressionF fuel PRECEDENCE.PREFIX p1 with
    | none => none
    | some (right, p2) => some (some (.prefixEx tok op right), p2)

/-- Binary operators (`parseInfixExpression`): recurse at the operator's
own precedence. -/
def parseInfixExpressionF : Nat → Option Expr → PState → Option (Option Expr × PState)
  | 0, _, _ => none
  | fuel+1, left, p =>
    let tok := p.curToken
    let op := p.curToken.literal
    let precedence := p.curPrecedence
    let p1 := p.nextToken
    match parseExpressionF fuel precedence p1 with
    | none => none
    | some (right, p2) => some (some (.infixEx tok left op right), p2)

/-- Grouped expressions (`parseGroupedExpression`). -/
def parseGroupedExpressionF : Nat → PState → Option (Option Expr × PState)
  | 0, _ => none
  | fuel+1, p =>
    let p1 := p.nextToken
    match parseExpressionF fuel PRECEDENCE.LOWEST p1 with
    | none => none
    | some (exp, p2) =>
      match p2.expectPeek .RPAREN with
      | (false, p3) => some (none, p3)
      | (true, p3) => some (exp, p3)

/-- If expressions (`parseIfExpression`). -/
def parseIfExpressionF : Nat → PState → Option (Option Expr × PState)
  | 0, _ => none
  | fuel+1, p =>
    let tok := p.curToken
    match p.expectPeek .LPAREN with
    | (false, p1) => some (none, p1)
    | (true, p1) =>
      let p2 := p1.nextToken
      match parseExpressionF fuel PRECEDENCE.LOWEST p2 with
      | none => none
      | some (cond, p3) =>
        match p3.expectPeek .RPAREN with
        | (false, p4) => some (none, p4)
        | (true, p4) =>
          match p4.expectPeek .LBRACE with
          | (false, p5) => some (none, p5)
          | (true, p5) =>
            match parseBlockStatementF fuel p5 with
            | none => none
            | some (cons, p6) =>
              if p6.peekTokenIs .ELSE then
                let p7 := p6.nextToken
                match p7.expectPeek .LBRACE with
                | (false, p8) => some (none, p8)
                | (true, p8) =>
                  match parseBlockStatementF fuel p8 with
                  | none => none
                  | some (alt, p9) =>
                    some (some (.ifEx tok cond (some cons) (some alt)), p9)
              else some (some (.ifEx tok cond (some cons) none), p6)

/-- Function literals (`parseFunctionLiteral`). -/
def parseFunctionLiteralF : Nat → PState → Option (Option Expr × PState)
  | 0, _ => none
  | fuel+1, p =>
    let tok := p.curToken
    match p.expectPeek .LPAREN with
    | (false, p1) => some (none, p1)
    | (true, p1) =>
      match parseFunctionParametersF fuel p1 with
      | none => none
      | some (params, p2) =>
        match p2.expectPeek .LBRACE with
        | (false, p3) => some (none, p3)
        | (true, p3) =>
          match parseBlockStatementF fuel p3 with
          | none => none
          | some (body, p4) => some (some (.fnLit tok params (some body)), p4)

/-- Parameter lists (`parseFunctionParameters`): every parameter token is
wrapped as an Identifier from its literal, with no check of its kind. -/
def parseFunctionParametersF : Nat → PState → Option (Option (List Expr) × PState)
  | 0, _ => none
  | fuel+1, p =>
    if p.peekTokenIs .RPAREN then some (some [], p.nextToken)
    else
      let p1 := p.nextToken
      let idt := Expr.identE p1.curToken p1.curToken.literal
      fnParamsLoop fuel [idt] p1

/-- The comma loop of `parseFunctionParameters`, followed by the
closing-parenthesis check. -/
def fnParamsLoop : Nat → List Expr → PState → Option (Option (List Expr) × PState)
  | 0, _, _ => none
  | fuel+1, acc, p =>
    if p.peekTokenIs .COMMA then
      let p1 := p.nextToken.nextToken
      let idt := Expr.identE p1.curToken p1.curToken.literal
      fnParamsLoop fuel (acc ++ [idt]) p1
    else
      match p.expectPeek .RPAREN with
      | (false, p1) => some (none, p1)
      | (true, p1) => some (some acc, p1)

/-- Call expressions (`parseCallExpression`): the callee is the expression
parsed so far, the arguments come from `parseCallArguments`. -/
def parseCallExpressionF : Nat → Option Expr → PState → Option (Option Expr × PState)
  | 0, _, _ => none
  | fuel+1, f, p =>
    let tok := p.curToken
    match parseCallArgumentsF fuel p with
    | none => none
    | some (args, p1) => some (some (.callEx tok f args), p1)

/-- Argument lists (`parseCallArguments`). -/
def parseCallArgumentsF : Nat → PState → Option (Option (List (Option Expr)) × PState)
  | 0, _ => none
  | fuel+1, p =>
    if p.peekTokenIs .RPAREN then some (some [], p.nextToken)
    else
      let p1 := p.nextToken
      match parseExpressionF fuel PRECEDENCE.LOWEST p1 with
      | none => none
      | some (a, p2) => callArgsLoop fuel [a] p2

/-- The comma loop of `parseCallArguments`, followed by the
closing-parenthesis check. -/
def callArgsLoop : Nat → List (Option Expr) → PState →
    Option (Option (List (Option Expr)) × PState)
  | 0, _, _ => none
  | fuel+1, acc, p =>
    if p.peekTokenIs .COMMA then
      let p1 := p.nextToken.nextToken
      match parseExpressionF fuel PRECEDENCE.LOWEST p1 with
      | none => none
      | some (a, p2) => callArgsLoop fuel (acc ++ [a]) p2
    else
      match p.expectPeek .RPAREN with
      | (false, p1) => some (none, p1)
      | (true, p1) => some (some acc, p1)

/-- Block statements (`parseBlockStatement`): consume the opening brace
and enter the statement loop. -/
def parseBlockStatementF : Nat → PState → Option (Stmt × PState)
  | 0, _ => none
  | fuel+1, p =>
    let tok := p.curToken
    blockLoop fuel tok [] p.nextToken

/-- The `while` loop of `parseBlockStatement`: the source only stops on a
closing brace — there is NO check for EOF (`while (!curTokenIs(RBRACE))`). -/
def blockLoop : Nat → Token → List Stmt → PState → Option (Stmt × PState)
  | 0, _, _, _ => none
  | fuel+1, tok, acc, p =>
    if p.curTokenIs .RBRACE then some (.blockStmt tok acc, p)
    else
      match parseStatementF fuel p with
      | none => none
      | some (st, p1) =>
        let acc2 := match st with
          | some s => acc ++ [s]
          | none => acc
        blockLoop fuel tok acc2 p1.nextToken

end

/-- The entry point `parseProgram()`. -/
def parseProgramF (fuel : Nat) (p : PState) : Option (List Stmt × PState) :=
  match fuel with
  | 0 => none
  | fuel+1 => programLoop fuel [] p

/-- The full pipeline: construct a Lexer on the source, a Parser on the
lexer, and run `parseProgram()`. -/
def parseSource (fuel : Nat) (s : String) : Option (List Stmt × PState) :=
  parseProgramF fuel (Parser.init (tokenize s))

/-- Statements of the parsed program (for readable theorem statements). -/
def parsedStatements (fuel : Nat) (s : String) : Option (List Stmt) :=
  (parseSource fuel s).map (fun q => q.1)

/-- Errors accumulated by the parser over a whole source. -/
def parserErrors (fuel : Nat) (s : String) : Option (List String) :=
  (parseSource fuel s).map (fun q => q.2.errors)

/-- Rendering `program.string()` of the parsed program. -/
def renderedProgram (fuel : Nat) (s : String) : Option String :=
  (parseSource fuel s).map (fun q => programString q.1)

/-- Names of the let statements of a program, in order. -/
def letNames (l : List Stmt) : List String :=
  l.filterMap fun s =>
    match s with
    | .letStmt _ (some (.identE _ v)) _ => some v
    | _ => none

/-- Value of the integer literal wrapped by the first statement, when the
first statement is an expression statement holding an IntegerLiteral. -/
def firstIntValue : List Stmt → Option JSNum
  | .exprStmt _ (some (.intLit _ n)) :: _ => some n
  | _ => none

/-! ## Supporting lemmas

The block-statement loop at end of input: `parseStatement` on an
exhausted stream either runs out of fuel or returns an empty
expression statement while pushing one diagnostic, leaving the
lookahead window at EOF forever. -/

theorem parseStatementF_eofState (f : Nat) (errs : List String) :
    parseStatementF f ⟨[], ⟨.kind .EOF, ""⟩, ⟨.kind .EOF, ""⟩, errs⟩ = none ∨
    parseStatementF f ⟨[], ⟨.kind .EOF, ""⟩, ⟨.kind .EOF, ""⟩, errs⟩ =
      some (some (.exprStmt ⟨.kind .EOF, ""⟩ none),
            ⟨[], ⟨.kind .EOF, ""⟩, ⟨.kind .EOF, ""⟩,
             errs ++ ["no prefix parse function for EOF found"]⟩) :=
  match f with
  | 0 => Or.inl rfl
  | 1 => Or.inl rfl
  | 2 => Or.inl rfl
  | _+3 => Or.inr rfl

/-- The block loop never returns once the stream is exhausted: every
iteration finds the current token ≠ `}` and loops again from the same
EOF window, so no amount of fuel completes it. -/
theorem blockLoop_eofState (f : Nat) :
    ∀ (tok : Token) (acc : List Stmt) (errs : List String),
      blockLoop f tok acc ⟨[], ⟨.kind .EOF, ""⟩, ⟨.kind .EOF, ""⟩, errs⟩ = none := by
  induction f with
  | zero => intro tok acc errs; rfl
  | succ f ih =>
    intro tok acc errs
    rcases parseStatementF_eofState f errs with h | h
    · simp [blockLoop, PState.curTokenIs, h]
    · simp [blockLoop, PState.curTokenIs, h, PState.nextToken, nextTok]
      exact ih tok _ _

/-- Specialisation to the state reached by parsing `"if (x) \x7b"`: at the
opening brace with nothing after it. -/
theorem parseBlockStatementF_eofState (f : Nat) :
    parseBlockStatementF f
      ⟨[], ⟨.kind .LBRACE, "\x7b"⟩, ⟨.kind .EOF, ""⟩, []⟩ = none :=
  match f with
  | 0 => rfl
  | f+1 => blockLoop_eofState f ⟨.kind .LBRACE, "\x7b"⟩ [] []

theorem parseIfExpressionF_ifx (f : Nat) :
    parseIfExpressionF f
      ⟨[⟨.kind .IDENT, "x"⟩, ⟨.kind .RPAREN, ")"⟩, ⟨.kind .LBRACE, "\x7b"⟩,
        ⟨.kind .EOF, ""⟩],
       ⟨.kind .IF, "if"⟩, ⟨.kind .LPAREN, "("⟩, []⟩ = none := by
  match f with
  | 0 => rfl
  | 1 => rfl
  | 2 => rfl
  | h+3 =>
    simp [parseIfExpressionF, parseExpressionF, parseIdentifier, prattLoop,
      PState.expectPeek, PState.peekTokenIs, PState.nextToken, nextTok,
      PState.peekPrecedence, PRECENDENCE_TABLE,
      parseBlockStatementF_eofState]

theorem parseExpressionF_ifx (f : Nat) :
    parseExpressionF f PRECEDENCE.LOWEST
      ⟨[⟨.kind .IDENT, "x"⟩, ⟨.kind .RPAREN, ")"⟩, ⟨.kind .LBRACE, "\x7b"⟩,
        ⟨.kind .EOF, ""⟩],
       ⟨.kind .IF, "if"⟩, ⟨.kind .LPAREN, "("⟩, []⟩ = none := by
  match f with
  | 0 => rfl
  | h+1 => simp [parseExpressionF, parseIfExpressionF_ifx]

theorem parseExpressionStatementF_ifx (f : Nat) :
    parseExpressionStatementF f
      ⟨[⟨.kind .IDENT, "x"⟩, ⟨.kind .RPAREN, ")"⟩, ⟨.kind .LBRACE, "\x7b"⟩,
        ⟨.kind .EOF, ""⟩],
       ⟨.kind .IF, "if"⟩, ⟨.kind .LPAREN, "("⟩, []⟩ = none := by
  match f with
  | 0 => rfl
  | h+1 => simp [parseExpressionStatementF, parseExpressionF_ifx]

theorem parseStatementF_ifx (f : Nat) :
    parseStatementF f
      ⟨[⟨.kind .IDENT, "x"⟩, ⟨.kind .RPAREN, ")"⟩, ⟨.kind .LBRACE, "\x7b"⟩,
        ⟨.kind .EOF, ""⟩],
       ⟨.kind .IF, "if"⟩, ⟨.kind .LPAREN, "("⟩, []⟩ = none := by
  match f with
  | 0 => rfl
  | h+1 => simp [parseStatementF, parseExpressionStatementF_ifx]

theorem programLoop_ifx (f : Nat) (acc : List Stmt) :
    programLoop f acc
      ⟨[⟨.kind .IDENT, "x"⟩, ⟨.kind .RPAREN, ")"⟩, ⟨.kind .LBRACE, "\x7b"⟩,
        ⟨.kind .EOF, ""⟩],
       ⟨.kind .IF, "if"⟩, ⟨.kind .LPAREN, "("⟩, []⟩ = none := by
  match f with
  | 0 => rfl
  | h+1 => simp [programLoop, PState.curTokenIs, parseStatementF_ifx]

theorem parseSource_ifx (fuel : Nat) : parseSource fuel "if (x) \x7b" = none :=
  match fuel with
  | 0 => rfl
  | f+1 => programLoop_ifx f []

/-- Comma-separated continuation of a parameter token list: the token
stream a source of the form `fn(t1, t2, ..., tn)` presents after `t1`. -/
def paramTail : List Token → List Token
  | [] => []
  | t :: ts => (⟨.kind .COMMA, ","⟩ : Token) :: t :: paramTail ts

/-- The Identifier nodes `parseFunctionParameters` wraps parameter tokens
into, one per token, from its literal. -/
def paramIdents (ts : List Token) : List Expr :=
  ts.map fun t => Expr.identE t t.literal

/-- Parser state at the head of the parameter loop: `cur` is the parameter
just consumed, the window continues with the interleaved commas, the
closing parenthesis and the rest of the stream. -/
def paramsLoopState (cur : Token) (ts : List Token) (rp : Token)
    (rest : List Token) (errs : List String) : PState :=
  ⟨(nextTok (paramTail ts ++ rp :: rest)).2, cur,
   (nextTok (paramTail ts ++ rp :: rest)).1, errs⟩

/-- Running the parameter loop over arbitrary comma-separated tokens: every
token is wrapped as an Identifier, no diagnostic is recorded, and the
loop stops at the closing parenthesis. -/
theorem fnParamsLoop_run (ts : List Token) :
    ∀ (fuel : Nat) (acc : List Expr) (cur rp : Token) (rest : List Token)
      (errs : List String), rp.type = .kind .RPAREN →
      fnParamsLoop (ts.length + fuel + 1) acc (paramsLoopState cur ts rp rest errs) =
        some (some (acc ++ paramIdents ts),
              ⟨(nextTok rest).2, rp, (nextTok rest).1, errs⟩) := by
  induction ts with
  | nil =>
    intro fuel acc cur rp rest errs hrp
    simp [fnParamsLoop, paramsLoopState, paramTail, nextTok, PState.peekTokenIs,
      PState.expectPeek, PState.nextToken, hrp, paramIdents]
  | cons t2 ts2 ih =>
    intro fuel acc cur rp rest errs hrp
    rw [show (t2 :: ts2 : List Token).length + fuel + 1 =
          (ts2.length + fuel + 1) + 1 from by simp; omega]
    exact (ih fuel (acc ++ [Expr.identE t2 t2.literal]) t2 rp rest errs hrp).trans
      (by simp [paramIdents, List.append_assoc])

/-! ## Claims -/

/-- C1: the spec (and the repository's own test) expect parsing
`"let x = 5; let y = 10; let foobar = 838383;"` to yield exactly 3
statements, all LetStatements with `tokenLiteral()` `"let"` and names
`x`, `y`, `foobar`, with zero parser errors.  The code disagrees: the
negated semicolon check in `parseLetStatement` (parser.ts:173) leaves
each `;` unconsumed, so the program gets 6 statements — the 3
LetStatements (whose names are correct) interleaved with 3 empty
ExpressionStatements — and the error list gets three
"no prefix parse function for ; found" entries. -/
theorem c1_let_statements_actual_behavior :
    (parsedStatements 100 "let x = 5; let y = 10; let foobar = 838383;").map
        (fun l => (l.length, l.map Stmt.tokenLiteral, letNames l)) =
      some (6, ["let", ";", "let", ";", "let", ";"], ["x", "y", "foobar"]) ∧
    parserErrors 100 "let x = 5; let y = 10; let foobar = 838383;" =
      some ["no prefix parse function for ; found",
            "no prefix parse function for ; found",
            "no prefix parse function for ; found"] := by
  constructor <;> rfl

/-- C3: the spec says the lexer advances past an illegal character and
the next `nextToken()` classifies the following character.  The code's
illegal branch returns without `readChar()` (contradicting the
documentation comment on `nextToken` itself), so the scanner state is
unchanged and every subsequent call returns the same ILLEGAL token: on
input `"@a"` the second call yields ILLEGAL `"@"` again, not IDENT
`"a"`. -/
theorem c3_illegal_char_does_not_advance :
    ((Lexer.new ("@a".toList)).nextToken).1 = newToken (.kind .ILLEGAL) "@" ∧
    ((Lexer.new ("@a".toList)).nextToken).2 = Lexer.new ("@a".toList) ∧
    (((Lexer.new ("@a".toList)).nextToken).2.nextToken).1 = newToken (.kind .ILLEGAL) "@" ∧
    (((Lexer.new ("@a".toList)).nextToken).2.nextToken).1 ≠ newToken (.kind .IDENT) "a" := by
  refine ⟨rfl, by decide, rfl, by decide⟩

/-- C4 counterexample: parsing `"let = 5;"` produces two diagnostics, not
exactly one — the expected-next-token diagnostic is followed by a
cascading "no prefix parse function for = found" when the parser
resumes on the `=` token. -/
theorem c4_two_diagnostics_not_one :
    (parserErrors 100 "let = 5;").map List.length = some 2 := by
  rfl

/-- C4 amended: parsing `"let = 5;"` produces exactly two diagnostics —
the first matching the expected-next-token template
(`"expected next token to be IDENT, got = instead"`), the second
`"no prefix parse function for = found"` — and the resulting Program
contains no LetStatement node (it holds two ExpressionStatements). -/
theorem c4_malformed_let_diagnostics :
    parserErrors 100 "let = 5;" =
      some ["expected next token to be IDENT, got = instead",
            "no prefix parse function for = found"] ∧
    (parsedStatements 100 "let = 5;").map (fun l => l.map Stmt.isLet) =
      some [false, false] := by
  constructor <;> rfl

set_option maxRecDepth 8192 in
/-- C6: the spec says an integer literal whose text is not representable
as the integer type is rejected with `"could not parse <literal> as
integer"` and yields no node.  The code's check is
`Number.isNaN(parseInt(literal))`, which is false for every nonempty
digit run, so it can never fire on an INT token: `9007199254740993`
(2^53 + 1, not exactly representable in a JS number) parses with zero
errors into an IntegerLiteral node whose stored value is the silently
rounded float 9007199254740992 — not the value the literal denotes. -/
theorem c6_huge_int_literal_not_rejected :
    parserErrors 100 "9007199254740993;" = some [] ∧
    (parsedStatements 100 "9007199254740993;").map
        (fun l => (l.length, firstIntValue l)) =
      some (1, some (.finite 9007199254740992)) ∧
    renderedProgram 100 "9007199254740993;" = some "9007199254740993" := by
  refine ⟨rfl, rfl, rfl⟩

/-- C7: operator precedence — `"-a * b"` renders as `"((-a) * b)"` and
`"a + b * c"` renders as `"(a + (b * c))"`, with no parser errors in
either case. -/
theorem c7_precedence_rendering :
    renderedProgram 100 "-a * b" = some "((-a) * b)" ∧
    parserErrors 100 "-a * b" = some [] ∧
    renderedProgram 100 "a + b * c" = some "(a + (b * c))" ∧
    parserErrors 100 "a + b * c" = some [] := by
  refine ⟨rfl, rfl, rfl, rfl⟩

/-- C8 counterexample: round-trip idempotence fails: `"fn()\x7b\x7d"`
parses with zero errors, but its rendering is `"fn() "` (blocks render
without braces), and re-parsing that rendering produces an error — the
re-parse is not error-free as the claim requires. -/
theorem c8_roundtrip_fails_on_function_literal :
    parserErrors 100 "fn()\x7b\x7d" = some [] ∧
    renderedProgram 100 "fn()\x7b\x7d" = some "fn() " ∧
    parserErrors 100 "fn() " =
      some ["expected next token to be \x7b, got EOF instead"] := by
  refine ⟨rfl, rfl, rfl⟩

/-- C8 amended: round-trip idempotence does not hold for programs with
block-bearing constructs (see the counterexample), but parse-then-render
reaches a fixed point from the second application onward on programs
without them, shown here on the spec's precedence samples and a call
expression: each sample parses with zero errors, its rendering
re-parses with zero errors, and the rendering of the re-parse equals
that rendering (so further applications change nothing). -/
theorem c8_roundtrip_fixed_point_samples :
    (parserErrors 100 "-a * b" = some [] ∧
      renderedProgram 100 "-a * b" = some "((-a) * b)" ∧
      parserErrors 100 "((-a) * b)" = some [] ∧
      renderedProgram 100 "((-a) * b)" = some "((-a) * b)") ∧
    (parserErrors 100 "a + b * c" = some [] ∧
      renderedProgram 100 "a + b * c" = some "(a + (b * c))" ∧
      parserErrors 100 "(a + (b * c))" = some [] ∧
      renderedProgram 100 "(a + (b * c))" = some "(a + (b * c))") ∧
    (parserErrors 100 "add(1, 2)" = some [] ∧
      renderedProgram 100 "add(1, 2)" = some "add(1,2)" ∧
      parserErrors 100 "add(1,2)" = some [] ∧
      renderedProgram 100 "add(1,2)" = some "add(1,2)") := by
  exact ⟨⟨rfl, rfl, rfl, rfl⟩, ⟨rfl, rfl, rfl, rfl⟩, ⟨rfl, rfl, rfl, rfl⟩⟩

/-- C2: the spec says block parsing stops when the current token is the
closing brace or EOF, so parsing always terminates.  The code's block
loop (`while (!this.curTokenIs(TOKENS.RBRACE))`, parser.ts:412)
has no EOF check; on a source whose opening brace is never closed the
loop spins forever at the exhausted stream (the lexer supplies EOF
tokens indefinitely), appending one "no prefix parse function for EOF
found" diagnostic per iteration.  Formally: (1) no amount of fuel
completes the block loop from an end-of-input window, and (2) no
amount of fuel completes `parseProgram()` on the source
`"if (x) \x7b"`. -/
theorem c2_block_parsing_diverges_at_eof :
    (∀ (fuel : Nat) (tok : Token) (acc : List Stmt) (errs : List String),
        blockLoop fuel tok acc ⟨[], ⟨.kind .EOF, ""⟩, ⟨.kind .EOF, ""⟩, errs⟩ = none) ∧
    (∀ fuel : Nat, parseSource fuel "if (x) \x7b" = none) :=
  ⟨blockLoop_eofState, parseSource_ifx⟩

/-- C5: the spec says keyword lookup is an exact, case-sensitive match —
the seven keywords map to their keyword kinds and EVERY other
identifier literal maps to IDENT.  The seven keyword mappings and
case-sensitivity do hold, but the universal IDENT clause fails:
`KEYWORDS` is a plain object literal, so `KEYWORDS[ident]` consults the
prototype chain, and for an identifier named after an
`Object.prototype` member (e.g. `constructor`, a maximal `[A-Za-z_]`
run) the access yields that inherited function — truthy, hence
returned by the `||` instead of `TOKENS.IDENT`.  Lexing the source
`"constructor"` therefore produces a token whose type is the inherited
member, not the IDENT kind — contradicting the claim, the spec, and
`lookupIdent`'s own doc comment ("If it doesn't match, it returns
IDENT"). -/
theorem c5_keyword_lookup_prototype_leak :
    lookupIdent "fn" = .kind .FUNCTION ∧ lookupIdent "let" = .kind .LET ∧
    lookupIdent "true" = .kind .TRUE ∧ lookupIdent "false" = .kind .FALSE ∧
    lookupIdent "if" = .kind .IF ∧ lookupIdent "else" = .kind .ELSE ∧
    lookupIdent "return" = .kind .RETURN ∧
    lookupIdent "foobar" = .kind .IDENT ∧
    lookupIdent "Fn" = .kind .IDENT ∧
    lookupIdent "constructor" = .protoProp "constructor" ∧
    lookupIdent "constructor" ≠ .kind .IDENT ∧
    ((Lexer.new ("constructor".toList)).nextToken).1 =
      newToken (.protoProp "constructor") "constructor" ∧
    ((Lexer.new ("constructor".toList)).nextToken).1.type ≠ .kind .IDENT ∧
    ((Lexer.new ("toString".toList)).nextToken).1 =
      newToken (.protoProp "toString") "toString" := by
  refine ⟨rfl, rfl, rfl, rfl, rfl, rfl, rfl, rfl, rfl, rfl, by decide, rfl,
    by decide, rfl⟩

/-- C9: when no prefix handler exists for the current token kind (and the
statement is not a let or return), `parseExpressionStatement` still
returns a non-null ExpressionStatement whose expression is null, after
recording the no-prefix diagnostic; such a statement renders as the
empty string; and on the source `";"` `parseProgram` appends such a
statement, so the program has one statement, a non-empty error list
and an empty rendering. -/
theorem c9_no_prefix_handler_empty_statement (f : Nat) (p : PState)
    (hpre : hasPrefixFn p.curToken.type = false)
    (hlet : p.curToken.type ≠ .kind .LET) (hret : p.curToken.type ≠ .kind .RETURN) :
    (parseStatementF (f+3) p =
      some (some (.exprStmt p.curToken none),
        (if (p.noPrefixParseFnError p.curToken.type).peekTokenIs .SEMICOLON
         then (p.noPrefixParseFnError p.curToken.type).nextToken
         else p.noPrefixParseFnError p.curToken.type))) ∧
    stmtString (.exprStmt p.curToken none) = "" ∧
    (parseSource 100 ";").map (fun q => (q.1, q.2.errors, programString q.1)) =
      some ([.exprStmt ⟨.kind .SEMICOLON, ";"⟩ none],
            ["no prefix parse function for ; found"], "") := by
  refine ⟨?_, rfl, rfl⟩
  cases htype : p.curToken.type with
  | protoProp n =>
    simp [parseStatementF, parseExpressionStatementF, parseExpressionF, htype]
  | kind k =>
    cases k
    all_goals try exact absurd htype hlet
    all_goals try exact absurd htype hret
    all_goals try (rw [htype] at hpre; simp [hasPrefixFn] at hpre)
    all_goals simp [parseStatementF, parseExpressionStatementF, parseExpressionF, htype]

/-- C9 witness: the parser primed on the source `";"` stands on a
semicolon, which has no prefix handler; the theorem instantiates to the
concrete empty expression statement. -/
theorem c9_no_prefix_handler_empty_statement_witness :
    hasPrefixFn (Parser.init (tokenize ";")).curToken.type = false ∧
    (Parser.init (tokenize ";")).curToken.type ≠ TokType.kind .LET ∧
    parseStatementF 3 (Parser.init (tokenize ";")) =
      some (some (.exprStmt (Parser.init (tokenize ";")).curToken none),
        (if ((Parser.init (tokenize ";")).noPrefixParseFnError
              (Parser.init (tokenize ";")).curToken.type).peekTokenIs .SEMICOLON
         then ((Parser.init (tokenize ";")).noPrefixParseFnError
              (Parser.init (tokenize ";")).curToken.type).nextToken
         else (Parser.init (tokenize ";")).noPrefixParseFnError
              (Parser.init (tokenize ";")).curToken.type)) :=
  ⟨by decide, by decide,
   (c9_no_prefix_handler_empty_statement 0 (Parser.init (tokenize ";"))
      (by decide) (by decide) (by decide)).1⟩

/-- C10: `parseFunctionParameters` never checks that parameter tokens are
identifiers.  For any tokens `t1, ..., tn` (of any kinds — the only
constraint is that the first is not itself the closing parenthesis,
which would end the list), presented comma-separated before a closing
parenthesis, every token is wrapped as an Identifier node carrying the
token's literal, the list is accepted with no diagnostic, and the
parser moves past the closing parenthesis.  When the token after the
list is not a closing parenthesis (nor a comma), the only diagnostic
produced is the expected-next-token error for `)`. -/
theorem c10_function_parameters_unchecked
    (fuel : Nat) (lp t1 : Token) (ts : List Token) (rp : Token)
    (rest : List Token) (errs : List String) (b : Token) (brest : List Token)
    (h1 : t1.type ≠ .kind .RPAREN) (hrp : rp.type = .kind .RPAREN)
    (hb1 : b.type ≠ .kind .RPAREN) (hb2 : b.type ≠ .kind .COMMA) :
    (parseFunctionParametersF (ts.length + fuel + 2)
        ⟨paramTail ts ++ rp :: rest, lp, t1, errs⟩ =
      some (some (paramIdents (t1 :: ts)),
            ⟨(nextTok rest).2, rp, (nextTok rest).1, errs⟩)) ∧
    (parseFunctionParametersF (fuel + 2) ⟨b :: brest, lp, t1, errs⟩ =
      some (none,
            ⟨brest, t1, b,
             errs ++ ["expected next token to be ), got " ++ b.type.str ++
               " instead"]⟩)) := by
  constructor
  · have key := fnParamsLoop_run ts fuel [Expr.identE t1 t1.literal] t1 rp rest errs hrp
    rw [show ts.length + fuel + 2 = (ts.length + fuel + 1) + 1 from by omega]
    simp only [parseFunctionParametersF, PState.peekTokenIs, h1, PState.nextToken,
      decide_eq_true_eq]
    exact key
  · rw [show fuel + 2 = (fuel + 1) + 1 from by omega]
    simp only [parseFunctionParametersF, PState.peekTokenIs, h1, PState.nextToken,
      decide_eq_true_eq]
    simp [fnParamsLoop, PState.peekTokenIs, hb1, hb2, PState.expectPeek,
      PState.peekError, PState.nextToken, nextTok, TOKENS.str]

/-- C10 witness: the parameter list `fn(1, true)` — an integer literal and
a keyword as parameters — is accepted with no diagnostic, both wrapped
as Identifier nodes. -/
theorem c10_function_parameters_unchecked_witness :
    (⟨.kind .INT, "1"⟩ : Token).type ≠ TokType.kind .RPAREN ∧
    (⟨.kind .RPAREN, ")"⟩ : Token).type = TokType.kind .RPAREN ∧
    parseFunctionParametersF 3
        ⟨paramTail [⟨.kind .TRUE, "true"⟩] ++ (⟨.kind .RPAREN, ")"⟩ : Token) :: [],
         ⟨.kind .LPAREN, "("⟩, ⟨.kind .INT, "1"⟩, []⟩ =
      some (some (paramIdents [⟨.kind .INT, "1"⟩, ⟨.kind .TRUE, "true"⟩]),
            ⟨[], ⟨.kind .RPAREN, ")"⟩, ⟨.kind .EOF, ""⟩, []⟩) :=
  ⟨by decide, rfl,
   (c10_function_parameters_unchecked 0 ⟨.kind .LPAREN, "("⟩ ⟨.kind .INT, "1"⟩
      [⟨.kind .TRUE, "true"⟩] ⟨.kind .RPAREN, ")"⟩ [] [] ⟨.kind .EOF, ""⟩ []
      (by decide) rfl (by decide) (by decide)).1⟩

end Interp
